import Mathlib

/-!
Verification of the ossm-rs firmware core against its specification.

The Rust sources are shallowly embedded: `f64` values are modelled as
rationals (`ℚ`), machine-integer casts (`as usize`, `as u64`, `as i32`)
as truncation toward zero, atomic cells as fields of explicit state
records, and the panicking `expect` calls as `Option` results.

The rational operations from the standard library are restored to their
default transparency so that concrete pattern traces can be evaluated by
`decide`.
-/

set_option allowUnsafeReducibility true

attribute [local semireducible] Rat.add Rat.mul Rat.inv Rat.sub Rat.div Rat.ofScientific

/-- Rust function utils::scale: linear rescaling of `input` from the range
`[input_start, input_end]` to the range `[output_start, output_end]`. -/
def scale (input input_start input_end output_start output_end : ℚ) : ℚ :=
  let slope := (output_end - output_start) / (input_end - input_start)
  output_start + slope * (input - input_start)

/-- Rust function utils::saturate_range: clamp `input` into `[lo, hi]`
(first raise to `lo`, then cap at `hi`). -/
def saturate_range (input lo hi : ℚ) : ℚ :=
  let o := if input < lo then lo else input
  if o > hi then hi else o

/-- Rust cast of a nonnegative-saturating float to an unsigned integer
(`as usize` / `as u64`): truncation toward zero, negative values to 0. -/
def ratAsNat (x : ℚ) : ℕ :=
  (x.num / (x.den : ℤ)).toNat

/-- Rust cast of a float to a signed integer (`as i32`): truncation toward
zero (for in-range values). -/
def ratAsInt (x : ℚ) : ℤ :=
  x.num / (x.den : ℤ)

/-- Constant pattern::MIN_SENSATION. -/
def MIN_SENSATION : ℚ := -100

/-- Constant pattern::MAX_SENSATION. -/
def MAX_SENSATION : ℚ := 100

/-- Struct pattern::PatternInput. -/
structure PatternInput where
  depth : ℚ
  motion_length : ℚ
  velocity : ℚ
  sensation : ℚ
deriving DecidableEq, Repr

/-- Struct pattern::PatternMove (`velocity`, `position`, `delay_ms`). -/
structure PatternMove where
  velocity : ℚ
  position : ℚ
  delay_ms : ℕ
deriving DecidableEq, Repr

/-- Constructor PatternMove::new. -/
def PatternMove.new (velocity position : ℚ) : PatternMove :=
  ⟨velocity, position, 0⟩

/-- Constructor PatternMove::new_with_delay. -/
def PatternMove.new_with_delay (velocity position : ℚ) (delay_ms : ℕ) : PatternMove :=
  ⟨velocity, position, delay_ms⟩

/-- State of pattern::simple::Simple. -/
structure Simple where
  out_stroke : Bool
deriving DecidableEq, Repr

/-- Simple::reset. -/
def Simple.reset (_ : Simple) : Simple := ⟨true⟩

/-- Simple::new (default, then reset). -/
def Simple.new : Simple := ⟨true⟩

/-- Simple::next_move: alternate at full velocity between `depth` and
`depth - motion_length`. -/
def Simple.next_move (s : Simple) (i : PatternInput) : PatternMove × Simple :=
  let m :=
    if s.out_stroke then
      PatternMove.new i.velocity i.depth
    else
      PatternMove.new i.velocity (i.depth - i.motion_length)
  (m, ⟨!s.out_stroke⟩)

/-- Velocity selection shared by TeasingPounding and HalfHalf: cut velocity
`velocity / 5`, scaled by `scale(|sensation|, 0, 100, 1, 5)` on the in
stroke for positive sensation and on the out stroke for negative
sensation. Returns `(out_stroke_velocity, in_stroke_velocity)`. -/
def teasingVelocities (i : PatternInput) : ℚ × ℚ :=
  let max_scaling_factor : ℚ := 5
  let cut_velocity := i.velocity / max_scaling_factor
  let sensation_factor := scale |i.sensation| 0 MAX_SENSATION 1 max_scaling_factor
  if i.sensation > 0 then
    (cut_velocity, cut_velocity * sensation_factor)
  else if i.sensation < 0 then
    (cut_velocity * sensation_factor, cut_velocity)
  else
    (cut_velocity, cut_velocity)

/-- State of pattern::teasingpounding::TeasingPounding. -/
structure TeasingPounding where
  out_stroke : Bool
deriving DecidableEq, Repr

/-- TeasingPounding::new. -/
def TeasingPounding.new : TeasingPounding := ⟨true⟩

/-- TeasingPounding::reset. -/
def TeasingPounding.reset (_ : TeasingPounding) : TeasingPounding := ⟨true⟩

/-- TeasingPounding::next_move. -/
def TeasingPounding.next_move (s : TeasingPounding) (i : PatternInput) :
    PatternMove × TeasingPounding :=
  let v := teasingVelocities i
  let m :=
    if s.out_stroke then
      PatternMove.new v.1 i.depth
    else
      PatternMove.new v.2 (i.depth - i.motion_length)
  (m, ⟨!s.out_stroke⟩)

/-- State of pattern::halfhalf::HalfHalf. -/
structure HalfHalf where
  out_stroke : Bool
  half : Bool
deriving DecidableEq, Repr

/-- HalfHalf::reset. -/
def HalfHalf.reset (_ : HalfHalf) : HalfHalf := ⟨true, false⟩

/-- HalfHalf::new. -/
def HalfHalf.new : HalfHalf := ⟨true, false⟩

/-- HalfHalf::next_move: every second out stroke only goes to
`depth - motion_length / 2`. -/
def HalfHalf.next_move (s : HalfHalf) (i : PatternInput) : PatternMove × HalfHalf :=
  let v := teasingVelocities i
  if s.out_stroke then
    let out_stroke_depth :=
      if s.half then i.depth - i.motion_length / 2 else i.depth
    (PatternMove.new v.1 out_stroke_depth, ⟨false, !s.half⟩)
  else
    (PatternMove.new v.2 (i.depth - i.motion_length), ⟨true, s.half⟩)

/-- State of pattern::deeper::Deeper. -/
structure Deeper where
  out_stroke : Bool
  num_steps : ℕ
  current_step : ℕ
  previous_sensation : ℚ
deriving DecidableEq, Repr

/-- Number of Deeper increments for a given sensation:
`scale(sensation, -100, 100, 2, 22) as usize`. -/
def deeperNumSteps (sensation : ℚ) : ℕ :=
  ratAsNat (scale sensation MIN_SENSATION MAX_SENSATION 2 22)

/-- Deeper::reset. -/
def Deeper.reset (_ : Deeper) : Deeper :=
  { out_stroke := true
    num_steps := deeperNumSteps 0
    current_step := 1
    previous_sensation := -420 }

/-- Deeper::new. -/
def Deeper.new : Deeper := Deeper.reset ⟨true, 0, 0, 0⟩

/-- Deeper::next_move. -/
def Deeper.next_move (s : Deeper) (i : PatternInput) : PatternMove × Deeper :=
  let s :=
    if i.sensation = s.previous_sensation then s
    else
      { s with
        num_steps := deeperNumSteps i.sensation
        current_step := 1
        previous_sensation := i.sensation }
  let in_stroke_depth := i.depth - i.motion_length
  if s.out_stroke then
    let increment := i.motion_length / (s.num_steps : ℚ)
    let cur := if s.current_step > s.num_steps then 1 else s.current_step
    let out_stroke_depth := in_stroke_depth + increment * (cur : ℚ)
    (PatternMove.new i.velocity out_stroke_depth,
      { s with out_stroke := false, current_step := cur + 1 })
  else
    (PatternMove.new i.velocity in_stroke_depth, { s with out_stroke := true })

/-- Constant stopngo::MAX_STROKES. -/
def MAX_STROKES : ℕ := 5

/-- Post-series delay of Stop'n'Go for a given sensation:
`scale(sensation, -100, 100, 100, 10000) as u64`. -/
def stopngoDelay (sensation : ℚ) : ℕ :=
  ratAsNat (scale sensation MIN_SENSATION MAX_SENSATION 100 10000)

/-- State of pattern::stopngo::StopNGo. -/
structure StopNGo where
  out_stroke : Bool
  num_strokes : ℕ
  current_stroke : ℕ
  counting_up : Bool
  previous_sensation : ℚ
deriving DecidableEq, Repr

/-- StopNGo::reset. -/
def StopNGo.reset (_ : StopNGo) : StopNGo :=
  { out_stroke := true
    num_strokes := 1
    current_stroke := 1
    counting_up := true
    previous_sensation := 0 }

/-- StopNGo::new. -/
def StopNGo.new : StopNGo := StopNGo.reset ⟨true, 0, 0, true, 0⟩

/-- StopNGo::next_move. -/
def StopNGo.next_move (s : StopNGo) (i : PatternInput) : PatternMove × StopNGo :=
  let s :=
    if i.sensation = s.previous_sensation then s
    else
      { s with
        num_strokes := 1
        current_stroke := 1
        previous_sensation := i.sensation }
  if s.out_stroke then
    (PatternMove.new i.velocity i.depth, { s with out_stroke := false })
  else
    let in_stroke_depth := i.depth - i.motion_length
    if s.current_stroke = s.num_strokes then
      let delay_ms := stopngoDelay i.sensation
      let up := if s.num_strokes = 1 then true else s.counting_up
      let up := if s.num_strokes = MAX_STROKES then false else up
      let ns := if up then s.num_strokes + 1 else s.num_strokes - 1
      (PatternMove.new_with_delay i.velocity in_stroke_depth delay_ms,
        { s with
          out_stroke := true
          counting_up := up
          num_strokes := ns
          current_stroke := 1 })
    else
      (PatternMove.new_with_delay i.velocity in_stroke_depth 0,
        { s with out_stroke := true, current_stroke := s.current_stroke + 1 })

/-- Enum pattern::AvailablePatterns (enum_dispatch over the five wired-in
patterns). -/
inductive AvailablePatterns
  | simple (s : Simple)
  | teasingPounding (s : TeasingPounding)
  | halfHalf (s : HalfHalf)
  | deeper (s : Deeper)
  | stopNGo (s : StopNGo)
deriving DecidableEq, Repr

/-- Dispatch of Pattern::reset over AvailablePatterns. -/
def AvailablePatterns.reset : AvailablePatterns → AvailablePatterns
  | .simple s => .simple s.reset
  | .teasingPounding s => .teasingPounding s.reset
  | .halfHalf s => .halfHalf s.reset
  | .deeper s => .deeper s.reset
  | .stopNGo s => .stopNGo s.reset

/-- Dispatch of Pattern::next_move over AvailablePatterns. -/
def AvailablePatterns.next_move (p : AvailablePatterns) (i : PatternInput) :
    PatternMove × AvailablePatterns :=
  match p with
  | .simple s => let r := s.next_move i; (r.1, .simple r.2)
  | .teasingPounding s => let r := s.next_move i; (r.1, .teasingPounding r.2)
  | .halfHalf s => let r := s.next_move i; (r.1, .halfHalf r.2)
  | .deeper s => let r := s.next_move i; (r.1, .deeper r.2)
  | .stopNGo s => let r := s.next_move i; (r.1, .stopNGo r.2)

/-- Struct pattern::PatternExecutor: the fixed 7-slot pattern array (with
holes) and the active index. -/
structure PatternExecutor where
  patterns : List (Option AvailablePatterns)
  current_pattern : ℕ
deriving DecidableEq, Repr

/-- PatternExecutor::new: slots 2 and 6 are deliberate holes. -/
def PatternExecutor.new : PatternExecutor :=
  { patterns :=
      [some (.simple Simple.new),
       some (.teasingPounding TeasingPounding.new),
       none,
       some (.halfHalf HalfHalf.new),
       some (.deeper Deeper.new),
       some (.stopNGo StopNGo.new),
       none]
    current_pattern := 0 }

/-- PatternExecutor::set_pattern: select slot `i` if in range and occupied,
otherwise log and fall back to index 0. -/
def PatternExecutor.set_pattern (e : PatternExecutor) (i : ℕ) : PatternExecutor :=
  match e.patterns[i]? with
  | some slot => if slot.isSome then { e with current_pattern := i }
                 else { e with current_pattern := 0 }
  | none => { e with current_pattern := 0 }

/-- PatternExecutor::reset: delegate to the active pattern; the `expect`
panic on an empty slot is modelled as `none`. -/
def PatternExecutor.reset (e : PatternExecutor) : Option PatternExecutor :=
  match e.patterns[e.current_pattern]? with
  | some (some p) =>
      some { e with patterns := e.patterns.set e.current_pattern (some p.reset) }
  | _ => none

/-- PatternExecutor::next_move: delegate to the active pattern, then
saturate `position` into `[0, depth]` and `velocity` into `[0, velocity]`;
the `expect` panic on an empty slot is modelled as `none`. -/
def PatternExecutor.next_move (e : PatternExecutor) (i : PatternInput) :
    Option (PatternMove × PatternExecutor) :=
  match e.patterns[e.current_pattern]? with
  | some (some p) =>
      let r := p.next_move i
      let m :=
        { r.1 with
          position := saturate_range r.1.position 0 i.depth
          velocity := saturate_range r.1.velocity 0 i.velocity }
      some (m, { e with patterns := e.patterns.set e.current_pattern (some r.2) })
  | _ => none

/-- Constant config::MIN_MOVE_MM. -/
def MIN_MOVE_MM : ℚ := 10

/-- Constant config::MAX_MOVE_MM. -/
def MAX_MOVE_MM : ℚ := 190

/-- Constant config::MAX_TRAVEL_MM. -/
def MAX_TRAVEL_MM : ℚ := MAX_MOVE_MM - MIN_MOVE_MM

/-- Constant config::MOTION_CONTROL_MIN_VELOCITY (ossm-motion value). -/
def MOTION_CONTROL_MIN_VELOCITY : ℚ := 1 / 1000

/-- Constant config::MOTION_CONTROL_MAX_VELOCITY. -/
def MOTION_CONTROL_MAX_VELOCITY : ℚ := 600

/-- Constant config::RETRACT_VELOCITY. -/
def RETRACT_VELOCITY : ℚ := MOTION_CONTROL_MAX_VELOCITY / 4

/-- Constant config::RETRACT_ON_MOTION_DISABLED. -/
def RETRACT_ON_MOTION_DISABLED : Bool := true

/-- Constant config::REVERSE_DIRECTION. -/
def REVERSE_DIRECTION : Bool := false

/-- Constant config::MOTOR_STEPS_PER_REVOLUTION. -/
def MOTOR_STEPS_PER_REVOLUTION : ℚ := 32768

/-- Constant config::PULLEY_TOOTH_COUNT. -/
def PULLEY_TOOTH_COUNT : ℚ := 20

/-- Constant config::BELT_PITCH. -/
def BELT_PITCH : ℚ := 2

/-- Constant config::STEPS_PER_MM. -/
def STEPS_PER_MM : ℚ :=
  MOTOR_STEPS_PER_REVOLUTION / (PULLEY_TOOTH_COUNT * BELT_PITCH)

/-- The motion-control mailbox cells (motion_control::MOTION_CONTROL_STATE
together with MOTION_CONTROL_STATE_UPDATED and MOVE_IN_PROGRESS). -/
structure MCState where
  position : ℚ
  velocity : ℚ
  torque : ℕ
  updated : Bool
  move_in_progress : Bool
deriving DecidableEq, Repr

/-- Function motion_control::set_target_position: store the target, set the
dirty flag and arm `move_in_progress`. -/
def set_target_position (position : ℚ) (s : MCState) : MCState :=
  { s with position := position, updated := true, move_in_progress := true }

/-- Function motion_control::set_max_velocity: raise arguments below
MOTION_CONTROL_MIN_VELOCITY to the minimum, cap arguments above
MOTION_CONTROL_MAX_VELOCITY, store and set the dirty flag. -/
def set_max_velocity (max_velocity : ℚ) (s : MCState) : MCState :=
  let v := if max_velocity < MOTION_CONTROL_MIN_VELOCITY
           then MOTION_CONTROL_MIN_VELOCITY else max_velocity
  let v := if v > MOTION_CONTROL_MAX_VELOCITY
           then MOTION_CONTROL_MAX_VELOCITY else v
  { s with velocity := v, updated := true }

/-- Function motion_control::set_max_velocity_scaled: rescale by the ratio
between the stored velocity setpoint and `current_velocity`, then delegate
to set_max_velocity. -/
def set_max_velocity_scaled (current_velocity new_max_velocity : ℚ) (s : MCState) :
    MCState :=
  let r := s.velocity / current_velocity
  set_max_velocity (new_max_velocity * r) s

/-- The effect on the mailbox of the motion-control tick observing
RuckigResult::Finished: `move_in_progress` is cleared. -/
def finishMove (s : MCState) : MCState :=
  { s with move_in_progress := false }

/-- The RuckigResult::Working branch of MotionControl::update_handler as a
function of the planner's `new_position` output: saturate into
`[MIN_MOVE_MM, MAX_MOVE_MM]` (two inline comparisons in the source), then
convert to steps, flipping the sign when REVERSE_DIRECTION is false, and
truncate to the i32 written to the motor. Returns the emitted position and
the written step count. -/
def motionControlWorkingTick (new_position : ℚ) : ℚ × ℤ :=
  let p := if new_position < MIN_MOVE_MM then MIN_MOVE_MM else new_position
  let p := if p > MAX_MOVE_MM then MAX_MOVE_MM else p
  let steps := p * STEPS_PER_MM
  let steps := if REVERSE_DIRECTION then steps else -steps
  (p, ratAsInt steps)

/-- Conversion of the stored velocity percentage to machine units, as in
MachineMotionState::from (motion_state.rs). -/
def machineVelocityOfPct (pct : ℕ) : ℚ :=
  scale (pct : ℚ) 0 100 MOTION_CONTROL_MIN_VELOCITY MOTION_CONTROL_MAX_VELOCITY

/-- The part of the shared motion state touched by
set_motion_velocity_pct: the stored velocity percentage plus the
motion-control mailbox it writes through to. -/
structure VelocityState where
  velocity_pct : ℕ
  mc : MCState
deriving DecidableEq, Repr

/-- Function motion_state::set_motion_velocity_pct: clamp the percentage to
100, convert the previous and the new percentage to machine units, call
set_max_velocity_scaled so the in-flight velocity is rescaled
proportionally, and store the new percentage. -/
def set_motion_velocity_pct (velocity : ℕ) (s : VelocityState) : VelocityState :=
  let velocity := if velocity > 100 then 100 else velocity
  let current_motion_velocity := machineVelocityOfPct s.velocity_pct
  let new_motion_velocity := machineVelocityOfPct velocity
  { velocity_pct := velocity
    mc := set_max_velocity_scaled current_motion_velocity new_motion_velocity s.mc }

/-- Function motion::retract (ossm-motion): submit target MIN_MOVE_MM, cap
the velocity at RETRACT_VELOCITY, poll until the motion-control loop clears
`move_in_progress` (its Finished branch, modelled by `finishMove`), then
restore the user-configured machine velocity captured on entry. -/
def retract (machine_velocity : ℚ) (s : MCState) : MCState :=
  set_max_velocity machine_velocity
    (finishMove (set_max_velocity RETRACT_VELOCITY (set_target_position MIN_MOVE_MM s)))

/-- The mailbox state after the submit phase of `retract`, before the poll
loop observes completion. -/
def retractSubmitted (s : MCState) : MCState :=
  set_max_velocity RETRACT_VELOCITY (set_target_position MIN_MOVE_MM s)

/-- The `motion_enabled` true-to-false edge branch of motion::run_motion
(ossm-motion): with RETRACT_ON_MOTION_DISABLED the pattern executor is
reset and the machine retracts; otherwise the velocity is floored. -/
def runMotionDisableEdge (e : PatternExecutor) (machine_velocity : ℚ) (s : MCState) :
    Option PatternExecutor × MCState :=
  if RETRACT_ON_MOTION_DISABLED then
    (e.reset, retract machine_velocity s)
  else
    (some e, set_max_velocity MOTION_CONTROL_MIN_VELOCITY s)

/-- The enable-edge dispatch of motion::run_motion: the disable branch runs
exactly on the `enabled: true → false` edge. -/
def runMotionEdgeCheck (motion_enabled prev_motion_enabled : Bool)
    (e : PatternExecutor) (machine_velocity : ℚ) (s : MCState) :
    Option PatternExecutor × MCState :=
  if !motion_enabled && prev_motion_enabled then
    runMotionDisableEdge e machine_velocity s
  else
    (some e, s)

/-- Constant ble::MAX_COMMAND_LENGTH (capacity of the heapless command and
response strings). -/
def MAX_COMMAND_LENGTH : ℕ := 64

/-- The motion-state setter invoked by ble::process_command. -/
inductive StateEffect
  | velocityPct (v : ℕ)
  | lengthPct (v : ℕ)
  | depthPct (v : ℕ)
  | sensationPct (v : ℕ)
  | patternIdx (v : ℕ)
  | enabledSet (b : Bool)
deriving DecidableEq, Repr

/-- Fold a digit list into a number, most significant first. -/
def digitsToNat (cs : List Char) : ℕ :=
  cs.foldl (fun n c => n * 10 + (c.toNat - '0'.toNat)) 0

/-- Rust `str::parse::<u32>`: an optional leading plus, then at least one
decimal digit, value at most `u32::MAX`; anything else is an error. -/
def parse_u32 (s : String) : Option ℕ :=
  let cs := match s.toList with
            | '+' :: rest => rest
            | cs => cs
  if cs = [] then none
  else if cs.all Char.isDigit then
    let n := digitsToNat cs
    if n < 2 ^ 32 then some n else none
  else none

/-- Splitting a character list on the colon separator, with the semantics
of Rust `str::split(":")` (empty pieces are kept, the empty string yields
one empty piece). -/
def splitColon : List Char → List (List Char)
  | [] => [[]]
  | c :: t =>
    let r := splitColon t
    if c = ':' then [] :: r
    else
      match r with
      | [] => [[c]]
      | h :: tl => (c :: h) :: tl

/-- The colon-separated parts of a command string. -/
def commandParts (s : String) : List String :=
  (splitColon s.toList).map List.asString

/-- The routing part of ble::process_command on the colon-separated parts
of the command: returns the setter invoked (if any) and the fail flag. -/
def routeCommand (parts : List String) : Option StateEffect × Bool :=
  match parts with
  | [] => (none, true)
  | [_] => (none, true)
  | cmd :: action :: rest =>
    if cmd = "set" then
      match rest with
      | [] => (none, true)
      | value :: _ =>
        match parse_u32 value with
        | none => (none, true)
        | some v =>
          if action = "speed" then (some (.velocityPct v), false)
          else if action = "stroke" then (some (.lengthPct v), false)
          else if action = "depth" then (some (.depthPct v), false)
          else if action = "sensation" then (some (.sensationPct v), false)
          else if action = "pattern" then (some (.patternIdx v), false)
          else (none, true)
    else if cmd = "go" then
      if action = "simplePenetration" then (some (.enabledSet true), false)
      else if action = "strokeEngine" then (some (.enabledSet true), false)
      else if action = "menu" then (some (.enabledSet false), false)
      else (none, true)
    else (none, true)

/-- The acknowledgement written back by ble::process_command: `ok:` or
`fail:` followed by the original command, or by `overflow` when appending
the original would exceed the 64-byte response capacity (heapless
`write_str` appends atomically or not at all). -/
def ackString (fail : Bool) (command : String) : String :=
  let head := if fail then "fail:" else "ok:"
  if head.length + command.length ≤ MAX_COMMAND_LENGTH then head ++ command
  else head ++ "overflow"

/-- Function ble::process_command: split on `:`, route, acknowledge. -/
def process_command (command : String) : Option StateEffect × String :=
  let r := routeCommand (commandParts command)
  (r.1, ackString r.2 command)

/-- Iterate a pattern step function, collecting the emitted moves. -/
def patternTrace {σ : Type} (step : σ → PatternInput → PatternMove × σ)
    (i : PatternInput) : ℕ → σ → List PatternMove
  | 0, _ => []
  | n + 1, s =>
    let r := step s i
    r.1 :: patternTrace step i n r.2

/-- The elements at odd positions of a list (the in strokes of an
alternating move trace). -/
def oddIdx {α : Type} : List α → List α
  | [] => []
  | [_] => []
  | _ :: b :: t => b :: oddIdx t

/-- Split a list of in-stroke moves into series sizes: a nonzero post-move
delay marks the last in stroke of a series. Incomplete trailing series are
dropped. -/
def seriesSizesAux : List PatternMove → ℕ → List ℕ
  | [], _ => []
  | m :: t, acc =>
    if m.delay_ms ≠ 0 then (acc + 1) :: seriesSizesAux t 0
    else seriesSizesAux t (acc + 1)

/-- The concrete Stop'n'Go scenario input of the specification:
depth 100, motion_length 50, velocity 200, sensation 0. -/
def stopngoInput : PatternInput := ⟨100, 50, 200, 0⟩

/-- The first `n` moves of Stop'n'Go from reset on `stopngoInput`. -/
def stopngoTrace (n : ℕ) : List PatternMove :=
  patternTrace StopNGo.next_move stopngoInput n StopNGo.new

/-- The series sizes realised by the first `n` moves of Stop'n'Go on
`stopngoInput`. -/
def stopngoSeriesSizes (n : ℕ) : List ℕ :=
  seriesSizesAux (oddIdx (stopngoTrace n)) 0

/-- The concrete Deeper scenario input of the specification:
depth 120, motion_length 60, velocity 200, sensation 0. -/
def deeperInput : PatternInput := ⟨120, 60, 200, 0⟩

/-- The first `n` moves of Deeper from reset on `deeperInput`. -/
def deeperTrace (n : ℕ) : List PatternMove :=
  patternTrace Deeper.next_move deeperInput n Deeper.new

/-- An operation on the pattern executor as invoked by the orchestrator. -/
inductive ExecutorOp
  | setPat (i : ℕ)
  | resetOp
  | nextMoveOp (inp : PatternInput)

/-- One executor operation; `none` models a panic of the `expect` calls
inside PatternExecutor::reset / next_move. -/
def execStep (e : PatternExecutor) : ExecutorOp → Option PatternExecutor
  | .setPat i => some (e.set_pattern i)
  | .resetOp => e.reset
  | .nextMoveOp inp => (e.next_move inp).map Prod.snd

/-- Run a sequence of executor operations from PatternExecutor::new. -/
def execRun (ops : List ExecutorOp) : Option PatternExecutor :=
  ops.foldl (fun a op => a.bind fun e => execStep e op) (some PatternExecutor.new)

/-- The occupancy mask of the executor's pattern slots. -/
def slotMask (e : PatternExecutor) : List Bool :=
  e.patterns.map Option.isSome

/-- Executor invariant: the slot occupancy is that of PatternExecutor::new
and the current index points at an occupied slot. -/
def ExecInv (e : PatternExecutor) : Prop :=
  slotMask e = [true, true, false, true, true, true, false] ∧
    (slotMask e)[e.current_pattern]? = some true

theorem execInv_new : ExecInv PatternExecutor.new := by
  constructor <;> rfl

theorem slotMask_getElem? (e : PatternExecutor) (i : ℕ) :
    (slotMask e)[i]? = (e.patterns[i]?).map Option.isSome := by
  simp [slotMask]

theorem occupied_of_execInv {e : PatternExecutor} (h : ExecInv e) :
    ∃ p, e.patterns[e.current_pattern]? = some (some p) := by
  have h2 := h.2
  rw [slotMask_getElem?] at h2
  cases ho : e.patterns[e.current_pattern]? with
  | none => rw [ho] at h2; cases h2
  | some o =>
    rw [ho] at h2
    cases o with
    | none => simp at h2
    | some p => exact ⟨p, rfl⟩

theorem list_set_same {l : List Bool} {n : ℕ} (h : l[n]? = some true) :
    l.set n true = l := by
  induction l generalizing n with
  | nil => rfl
  | cons a t ih =>
    cases n with
    | zero => simp at h; simp [List.set, h]
    | succ m =>
      simp only [List.getElem?_cons_succ] at h
      simp [List.set, ih h]

theorem slotMask_set {e : PatternExecutor} {p : AvailablePatterns}
    (h : (slotMask e)[e.current_pattern]? = some true) :
    slotMask { e with patterns := e.patterns.set e.current_pattern (some p) } =
      slotMask e := by
  show (e.patterns.set e.current_pattern (some p)).map Option.isSome = _
  rw [List.map_set]
  exact list_set_same h

theorem execInv_set_pattern {e : PatternExecutor} (h : ExecInv e) (i : ℕ) :
    ExecInv (e.set_pattern i) := by
  unfold PatternExecutor.set_pattern
  cases ho : e.patterns[i]? with
  | none =>
    refine ⟨h.1, ?_⟩
    show (slotMask e)[0]? = some true
    rw [h.1]; rfl
  | some o =>
    cases o with
    | none =>
      simp only [Option.isSome_none, Bool.false_eq_true, if_false]
      refine ⟨h.1, ?_⟩
      show (slotMask e)[0]? = some true
      rw [h.1]; rfl
    | some p =>
      simp only [Option.isSome_some, if_true]
      refine ⟨h.1, ?_⟩
      show (slotMask e)[i]? = some true
      rw [slotMask_getElem?, ho]
      rfl

theorem execInv_reset {e : PatternExecutor} (h : ExecInv e) :
    ∃ e', e.reset = some e' ∧ ExecInv e' := by
  obtain ⟨p, hp⟩ := occupied_of_execInv h
  refine ⟨_, by rw [PatternExecutor.reset, hp], ?_⟩
  constructor
  · rw [slotMask_set h.2]; exact h.1
  · show (slotMask _)[e.current_pattern]? = some true
    rw [slotMask_set h.2]; exact h.2

theorem execInv_next_move {e : PatternExecutor} (h : ExecInv e) (inp : PatternInput) :
    ∃ r, e.next_move inp = some r ∧ ExecInv r.2 := by
  obtain ⟨p, hp⟩ := occupied_of_execInv h
  refine ⟨_, by rw [PatternExecutor.next_move, hp], ?_⟩
  constructor
  · rw [slotMask_set h.2]; exact h.1
  · show (slotMask _)[e.current_pattern]? = some true
    rw [slotMask_set h.2]; exact h.2

theorem execStep_preserves {e : PatternExecutor} (h : ExecInv e) (op : ExecutorOp) :
    ∃ e', execStep e op = some e' ∧ ExecInv e' := by
  cases op with
  | setPat i => exact ⟨_, rfl, execInv_set_pattern h i⟩
  | resetOp => exact execInv_reset h
  | nextMoveOp inp =>
    obtain ⟨r, hr, hinv⟩ := execInv_next_move h inp
    exact ⟨r.2, by simp [execStep, hr], hinv⟩

theorem execRun_aux (ops : List ExecutorOp) :
    ∀ e, ExecInv e →
      ∃ e', ops.foldl (fun a op => a.bind fun x => execStep x op) (some e) = some e' ∧
        ExecInv e' := by
  induction ops with
  | nil => exact fun e h => ⟨e, rfl, h⟩
  | cons op t ih =>
    intro e h
    obtain ⟨e₁, hs, h₁⟩ := execStep_preserves h op
    obtain ⟨e', hrun, h'⟩ := ih e₁ h₁
    exact ⟨e', by simpa [hs] using hrun, h'⟩

theorem saturate_range_bounds {x lo hi : ℚ} (h : lo ≤ hi) :
    lo ≤ saturate_range x lo hi ∧ saturate_range x lo hi ≤ hi := by
  simp only [saturate_range]
  split_ifs <;> constructor <;> linarith

/-- C1: for every pattern input with nonnegative depth and velocity and
every executor state, a move returned by PatternExecutor::next_move has,
after post-processing, `position ∈ [0, input.depth]` and
`velocity ∈ [0, input.velocity]`, regardless of what the delegated pattern
produced. -/
theorem patternExecutor_next_move_saturates (e : PatternExecutor) (i : PatternInput)
    (m : PatternMove) (e' : PatternExecutor)
    (hrun : e.next_move i = some (m, e'))
    (hd : 0 ≤ i.depth) (hv : 0 ≤ i.velocity) :
    0 ≤ m.position ∧ m.position ≤ i.depth ∧
      0 ≤ m.velocity ∧ m.velocity ≤ i.velocity := by
  unfold PatternExecutor.next_move at hrun
  cases ho : e.patterns[e.current_pattern]? with
  | none => rw [ho] at hrun; cases hrun
  | some o =>
    cases o with
    | none => rw [ho] at hrun; cases hrun
    | some p =>
      rw [ho] at hrun
      simp only [Option.some.injEq, Prod.mk.injEq] at hrun
      obtain ⟨hm, _⟩ := hrun
      have hpos := saturate_range_bounds (x := (p.next_move i).1.position) hd
      have hvel := saturate_range_bounds (x := (p.next_move i).1.velocity) hv
      rw [← hm]
      exact ⟨hpos.1, hpos.2, hvel.1, hvel.2⟩

/-- Concrete scenario input for the C1 witness. -/
def c1Input : PatternInput := ⟨100, 50, 200, 0⟩

/-- The move and successor state produced by the executor on `c1Input`. -/
def c1Result : PatternMove × PatternExecutor :=
  (PatternExecutor.next_move PatternExecutor.new c1Input).getD
    (PatternMove.new 0 0, PatternExecutor.new)

theorem patternExecutor_next_move_saturates_witness :
    0 ≤ c1Result.1.position ∧ c1Result.1.position ≤ c1Input.depth ∧
      0 ≤ c1Result.1.velocity ∧ c1Result.1.velocity ≤ c1Input.velocity :=
  patternExecutor_next_move_saturates PatternExecutor.new c1Input c1Result.1 c1Result.2
    (by decide) (by decide) (by decide)

/-- C8: PatternExecutor::set_pattern selects slot `i` when it exists and
holds a pattern, and falls back to index 0 when the slot is an empty hole
or the index is out of range. -/
theorem set_pattern_fallback (e : PatternExecutor) (i : ℕ) :
    (∀ p, e.patterns[i]? = some (some p) →
        e.set_pattern i = { e with current_pattern := i }) ∧
    (e.patterns[i]? = some none →
        e.set_pattern i = { e with current_pattern := 0 }) ∧
    (e.patterns.length ≤ i →
        e.set_pattern i = { e with current_pattern := 0 }) := by
  refine ⟨?_, ?_, ?_⟩
  · intro p hp
    unfold PatternExecutor.set_pattern
    rw [hp]
    rfl
  · intro hp
    unfold PatternExecutor.set_pattern
    rw [hp]
    rfl
  · intro hlen
    unfold PatternExecutor.set_pattern
    rw [List.getElem?_eq_none hlen]

theorem set_pattern_fallback_witness :
    PatternExecutor.new.set_pattern 4 =
      { PatternExecutor.new with current_pattern := 4 } ∧
    PatternExecutor.new.set_pattern 2 =
      { PatternExecutor.new with current_pattern := 0 } ∧
    PatternExecutor.new.set_pattern 9 =
      { PatternExecutor.new with current_pattern := 0 } :=
  ⟨(set_pattern_fallback PatternExecutor.new 4).1 (.deeper Deeper.new) (by decide),
   (set_pattern_fallback PatternExecutor.new 2).2.1 (by decide),
   (set_pattern_fallback PatternExecutor.new 9).2.2 (by decide)⟩

/-- C10: from PatternExecutor::new, any sequence of set_pattern, reset and
next_move calls keeps `current_pattern` on an occupied slot, so the
internal `expect` unwraps never fire and no operation panics. -/
theorem executor_never_panics (ops : List ExecutorOp) :
    ∃ e, execRun ops = some e ∧
      ∃ p, e.patterns[e.current_pattern]? = some (some p) := by
  obtain ⟨e, hrun, hinv⟩ := execRun_aux ops PatternExecutor.new execInv_new
  exact ⟨e, hrun, occupied_of_execInv hinv⟩

/-- C2: on a Working planner step, the emitted position is the planner
output saturated into `[MIN_MOVE_MM, MAX_MOVE_MM]` (so it always lies in
the envelope), and the step count written to the motor is
`position * STEPS_PER_MM` with the sign flipped exactly when
REVERSE_DIRECTION is false. -/
theorem motionControl_working_tick_envelope (new_position : ℚ) :
    MIN_MOVE_MM ≤ (motionControlWorkingTick new_position).1 ∧
    (motionControlWorkingTick new_position).1 ≤ MAX_MOVE_MM ∧
    (motionControlWorkingTick new_position).1 =
      saturate_range new_position MIN_MOVE_MM MAX_MOVE_MM ∧
    (motionControlWorkingTick new_position).2 =
      ratAsInt (if REVERSE_DIRECTION
                then (motionControlWorkingTick new_position).1 * STEPS_PER_MM
                else -((motionControlWorkingTick new_position).1 * STEPS_PER_MM)) := by
  have hlo : (MIN_MOVE_MM : ℚ) ≤ MAX_MOVE_MM := by norm_num [MIN_MOVE_MM, MAX_MOVE_MM]
  simp only [motionControlWorkingTick, saturate_range, REVERSE_DIRECTION,
    Bool.false_eq_true, if_false]
  split_ifs with h1 h2 h3 <;>
    refine ⟨by linarith, by linarith, ?_, ?_⟩ <;> first | rfl | trivial

/-- The initial motion-control mailbox contents (MOTION_CONTROL_STATE
statics). -/
def mcInit : MCState :=
  ⟨MIN_MOVE_MM, MOTION_CONTROL_MIN_VELOCITY, 0, false, false⟩

/-- C3: motion_control::set_max_velocity stores the argument clamped into
`[MOTION_CONTROL_MIN_VELOCITY, MOTION_CONTROL_MAX_VELOCITY]` (arguments
at or below the minimum, including nonpositive ones, are raised to the
minimum; arguments above the maximum are capped) and sets the dirty
flag. -/
theorem set_max_velocity_clamps (v : ℚ) (s : MCState) :
    MOTION_CONTROL_MIN_VELOCITY ≤ (set_max_velocity v s).velocity ∧
    (set_max_velocity v s).velocity ≤ MOTION_CONTROL_MAX_VELOCITY ∧
    (v ≤ MOTION_CONTROL_MIN_VELOCITY →
      (set_max_velocity v s).velocity = MOTION_CONTROL_MIN_VELOCITY) ∧
    (MOTION_CONTROL_MAX_VELOCITY ≤ v →
      (set_max_velocity v s).velocity = MOTION_CONTROL_MAX_VELOCITY) ∧
    (MOTION_CONTROL_MIN_VELOCITY ≤ v → v ≤ MOTION_CONTROL_MAX_VELOCITY →
      (set_max_velocity v s).velocity = v) ∧
    (set_max_velocity v s).updated = true := by
  have hlohi : (MOTION_CONTROL_MIN_VELOCITY : ℚ) ≤ MOTION_CONTROL_MAX_VELOCITY := by
    norm_num [MOTION_CONTROL_MIN_VELOCITY, MOTION_CONTROL_MAX_VELOCITY]
  simp only [set_max_velocity]
  split_ifs with h1 h2 h3 <;>
    refine ⟨?_, ?_, ?_, ?_, ?_, ?_⟩ <;> intros <;> try dsimp only
  all_goals first | rfl | trivial | linarith

theorem set_max_velocity_clamps_witness :
    (set_max_velocity (-5) mcInit).velocity = MOTION_CONTROL_MIN_VELOCITY ∧
    (set_max_velocity 700 mcInit).velocity = MOTION_CONTROL_MAX_VELOCITY ∧
    (set_max_velocity 300 mcInit).velocity = 300 ∧
    (set_max_velocity 300 mcInit).updated = true :=
  ⟨(set_max_velocity_clamps (-5) mcInit).2.2.1 (by decide),
   (set_max_velocity_clamps 700 mcInit).2.2.2.1 (by decide),
   (set_max_velocity_clamps 300 mcInit).2.2.2.2.1 (by decide) (by decide),
   (set_max_velocity_clamps 300 mcInit).2.2.2.2.2⟩

/-- C5: for every percentage `p ≤ 100`, set_motion_velocity_pct stores `p`
and drives the motion-control setpoint through
`set_max_velocity(new_mm * (s / old_mm))`, where `s` is the current
motion-control velocity setpoint, `old_mm` the machine velocity implied by
the previously stored percentage and `new_mm` the one implied by `p`: the
in-flight velocity is rescaled proportionally, not replaced by the raw new
value. -/
theorem set_motion_velocity_pct_preserves_ratio (p : ℕ) (s : VelocityState)
    (hp : p ≤ 100) :
    (set_motion_velocity_pct p s).mc =
      set_max_velocity
        (machineVelocityOfPct p *
          (s.mc.velocity / machineVelocityOfPct s.velocity_pct)) s.mc ∧
    (set_motion_velocity_pct p s).velocity_pct = p := by
  have h100 : ¬ p > 100 := by omega
  simp [set_motion_velocity_pct, set_max_velocity_scaled, h100]

/-- Concrete velocity state for the C5 witness: stored percentage 20 with a
pattern-cut in-flight setpoint of 24 mm/s. -/
def c5State : VelocityState := ⟨20, ⟨10, 24, 0, false, true⟩⟩

theorem set_motion_velocity_pct_preserves_ratio_witness :
    (set_motion_velocity_pct 50 c5State).mc =
      set_max_velocity
        (machineVelocityOfPct 50 *
          (c5State.mc.velocity / machineVelocityOfPct c5State.velocity_pct))
        c5State.mc ∧
    (set_motion_velocity_pct 50 c5State).velocity_pct = 50 :=
  set_motion_velocity_pct_preserves_ratio 50 c5State (by decide)

/-- C4: on the `motion_enabled` true-to-false edge the orchestrator resets
the active pattern and retracts: the submitted move is target MIN_MOVE_MM
with velocity cap RETRACT_VELOCITY (arming `move_in_progress`); after the
poll loop observes completion the velocity cap is restored to the
user-configured machine velocity and `move_in_progress` is false. -/
theorem run_motion_disable_edge_retracts (e : PatternExecutor)
    (machine_velocity : ℚ) (s : MCState)
    (h1 : MOTION_CONTROL_MIN_VELOCITY ≤ machine_velocity)
    (h2 : machine_velocity ≤ MOTION_CONTROL_MAX_VELOCITY) :
    (retractSubmitted s).position = MIN_MOVE_MM ∧
    (retractSubmitted s).velocity = RETRACT_VELOCITY ∧
    (retractSubmitted s).move_in_progress = true ∧
    (runMotionEdgeCheck false true e machine_velocity s).2 =
      retract machine_velocity s ∧
    (runMotionEdgeCheck false true e machine_velocity s).2.velocity =
      machine_velocity ∧
    (runMotionEdgeCheck false true e machine_velocity s).2.move_in_progress = false ∧
    (∀ p, e.patterns[e.current_pattern]? = some (some p) →
      (runMotionEdgeCheck false true e machine_velocity s).1 =
        some { e with
               patterns := e.patterns.set e.current_pattern (some p.reset) }) := by
  have hrv₁ : ¬ (RETRACT_VELOCITY < MOTION_CONTROL_MIN_VELOCITY) := by
    norm_num [RETRACT_VELOCITY, MOTION_CONTROL_MIN_VELOCITY, MOTION_CONTROL_MAX_VELOCITY]
  have hrv₂ : ¬ (RETRACT_VELOCITY > MOTION_CONTROL_MAX_VELOCITY) := by
    norm_num [RETRACT_VELOCITY, MOTION_CONTROL_MIN_VELOCITY, MOTION_CONTROL_MAX_VELOCITY]
  have hmv₁ : ¬ (machine_velocity < MOTION_CONTROL_MIN_VELOCITY) := not_lt.mpr h1
  have hmv₂ : ¬ (machine_velocity > MOTION_CONTROL_MAX_VELOCITY) := not_lt.mpr h2
  refine ⟨?_, ?_, ?_, ?_, ?_, ?_, ?_⟩
  · simp [retractSubmitted, set_max_velocity, set_target_position]
  · simp [retractSubmitted, set_max_velocity, set_target_position, hrv₁, hrv₂]
  · simp [retractSubmitted, set_max_velocity, set_target_position]
  · simp [runMotionEdgeCheck, runMotionDisableEdge, RETRACT_ON_MOTION_DISABLED]
  · simp [runMotionEdgeCheck, runMotionDisableEdge, RETRACT_ON_MOTION_DISABLED,
      retract, finishMove, set_max_velocity, set_target_position, hmv₁, hmv₂]
  · simp [runMotionEdgeCheck, runMotionDisableEdge, RETRACT_ON_MOTION_DISABLED,
      retract, finishMove, set_max_velocity, set_target_position]
  · intro p hp
    simp only [runMotionEdgeCheck, runMotionDisableEdge, RETRACT_ON_MOTION_DISABLED,
      Bool.not_false, Bool.and_self, if_true]
    rw [PatternExecutor.reset, hp]

/-- Concrete mailbox state for the C4 witness: velocity cap 300 with a move
in flight. -/
def c4Cells : MCState := ⟨50, 300, 0, false, true⟩

theorem run_motion_disable_edge_retracts_witness :
    (retractSubmitted c4Cells).position = MIN_MOVE_MM ∧
    (retractSubmitted c4Cells).velocity = RETRACT_VELOCITY ∧
    (runMotionEdgeCheck false true PatternExecutor.new 300 c4Cells).2.velocity = 300 ∧
    (runMotionEdgeCheck false true PatternExecutor.new 300 c4Cells).2.move_in_progress
      = false ∧
    (runMotionEdgeCheck false true PatternExecutor.new 300 c4Cells).1 =
      some { PatternExecutor.new with
             patterns := PatternExecutor.new.patterns.set 0
               (some ((AvailablePatterns.simple Simple.new).reset)) } := by
  have h := run_motion_disable_edge_retracts PatternExecutor.new 300 c4Cells
    (by decide) (by decide)
  exact ⟨h.1, h.2.1, h.2.2.2.2.1, h.2.2.2.2.2.1,
    h.2.2.2.2.2.2 (AvailablePatterns.simple Simple.new) (by decide)⟩

/-- C6 counterexample: the claim says the series size ramps
1,2,3,4,5,5,4,3,2,1,1 with both endpoints repeated; on the concrete
sensation-0 scenario the first six series produced by the code have sizes
1,2,3,4,5,4 — the sixth series has 4 strokes, not a repeated 5. -/
theorem stopngo_series_sizes_counterexample :
    stopngoSeriesSizes 38 = [1, 2, 3, 4, 5, 4] ∧
    stopngoSeriesSizes 38 ≠ [1, 2, 3, 4, 5, 5] := by
  constructor <;> decide

/-- C6 (amended): the Stop'n'Go series size cycles 1,2,3,4,5,4,3,2 with
each endpoint visited once (direction switches at the endpoints without
repeating them); the last in-stroke of every series carries
`delay_ms = scale(sensation, -100, 100, 100, 10000)` (5050 for sensation 0)
while all other moves carry delay 0; all strokes use `input.velocity`; and
any change of sensation resets the series size and the in-series
counter to 1. -/
theorem stopngo_amended :
    stopngoSeriesSizes 96 = [1, 2, 3, 4, 5, 4, 3, 2, 1, 2, 3, 4, 5, 4, 3, 2] ∧
    stopngoDelay 0 = 5050 ∧
    (∀ m ∈ stopngoTrace 96, m.velocity = stopngoInput.velocity ∧
      (m.delay_ms = 0 ∨ m.delay_ms = stopngoDelay stopngoInput.sensation)) ∧
    (∀ (i : PatternInput) (s : StopNGo), i.sensation ≠ s.previous_sensation →
      StopNGo.next_move s i =
        StopNGo.next_move
          { s with num_strokes := 1, current_stroke := 1,
                   previous_sensation := i.sensation } i) ∧
    (∀ (i : PatternInput) (s : StopNGo),
      (StopNGo.next_move s i).1.velocity = i.velocity) := by
  refine ⟨by decide, by decide, by decide, ?_, ?_⟩
  · intro i s h
    simp [StopNGo.next_move, h]
  · intro i s
    simp only [StopNGo.next_move, PatternMove.new, PatternMove.new_with_delay]
    split_ifs <;> rfl

/-- Mid-series Stop'n'Go state used by the C6 witness. -/
def c6State : StopNGo := ⟨false, 3, 2, true, 0⟩

theorem stopngo_amended_witness :
    (PatternMove.new_with_delay 200 50 5050).velocity = stopngoInput.velocity ∧
    ((PatternMove.new_with_delay 200 50 5050).delay_ms = 0 ∨
      (PatternMove.new_with_delay 200 50 5050).delay_ms =
        stopngoDelay stopngoInput.sensation) ∧
    StopNGo.next_move c6State ⟨100, 50, 200, 7⟩ =
      StopNGo.next_move ⟨false, 1, 1, true, 7⟩ ⟨100, 50, 200, 7⟩ ∧
    (StopNGo.next_move c6State stopngoInput).1.velocity = stopngoInput.velocity := by
  have h := stopngo_amended
  have hm := h.2.2.1 (PatternMove.new_with_delay 200 50 5050) (by decide)
  exact ⟨hm.1, hm.2, h.2.2.2.1 ⟨100, 50, 200, 7⟩ c6State (by decide),
    h.2.2.2.2 stopngoInput c6State⟩

/-- C7: the Deeper pattern uses `N = scale(sensation, -100, 100, 2, 22)`
steps (12 for sensation 0); on the concrete scenario (depth 120,
motion_length 60, sensation 0) the out targets advance 65, 70, ..., 120 and
wrap back to 65, each followed by an in stroke to 60; every move uses
`input.velocity` with no delay; the in stroke always returns to
`depth - motion_length`; an out stroke with `1 ≤ step ≤ N` targets
`in_base + (step / N) * motion_length`; and any change of sensation resets
the step counter. -/
theorem deeper_pattern_spec :
    deeperNumSteps 0 = 12 ∧
    (deeperTrace 25).map PatternMove.position =
      [65, 60, 70, 60, 75, 60, 80, 60, 85, 60, 90, 60, 95, 60, 100, 60,
       105, 60, 110, 60, 115, 60, 120, 60, 65] ∧
    (∀ m ∈ deeperTrace 25, m.velocity = deeperInput.velocity ∧ m.delay_ms = 0) ∧
    (∀ (i : PatternInput) (s : Deeper),
      (Deeper.next_move s i).1.velocity = i.velocity) ∧
    (∀ (i : PatternInput) (s : Deeper), s.out_stroke = false →
      (Deeper.next_move s i).1.position = i.depth - i.motion_length) ∧
    (∀ (i : PatternInput) (s : Deeper),
      i.sensation = s.previous_sensation → s.out_stroke = true →
      1 ≤ s.current_step → s.current_step ≤ s.num_steps →
      (Deeper.next_move s i).1.position =
        (i.depth - i.motion_length) +
          ((s.current_step : ℚ) / (s.num_steps : ℚ)) * i.motion_length) ∧
    (∀ (i : PatternInput) (s : Deeper), i.sensation ≠ s.previous_sensation →
      Deeper.next_move s i =
        Deeper.next_move
          { s with num_steps := deeperNumSteps i.sensation, current_step := 1,
                   previous_sensation := i.sensation } i) := by
  refine ⟨by decide, by decide, by decide, ?_, ?_, ?_, ?_⟩
  · intro i s
    simp only [Deeper.next_move, PatternMove.new]
    split_ifs <;> rfl
  · intro i s h
    simp only [Deeper.next_move, PatternMove.new]
    split_ifs <;> simp_all
  · intro i s hsen hout h1 hle
    have hngt : ¬ (s.current_step > s.num_steps) := not_lt.mpr hle
    simp only [Deeper.next_move, if_pos hsen, hout, if_true, hngt, if_false,
      PatternMove.new]
    ring
  · intro i s h
    simp [Deeper.next_move, h]

/-- Mid-run Deeper states used by the C7 witness. -/
def c7InState : Deeper := ⟨false, 12, 3, 0⟩

/-- Out-stroke Deeper state used by the C7 witness. -/
def c7OutState : Deeper := ⟨true, 12, 3, 0⟩

theorem deeper_pattern_spec_witness :
    (PatternMove.new 200 65).velocity = deeperInput.velocity ∧
    (PatternMove.new 200 65).delay_ms = 0 ∧
    (Deeper.next_move c7InState deeperInput).1.position =
      deeperInput.depth - deeperInput.motion_length ∧
    (Deeper.next_move c7OutState deeperInput).1.position =
      (deeperInput.depth - deeperInput.motion_length) +
        ((c7OutState.current_step : ℚ) / (c7OutState.num_steps : ℚ)) *
          deeperInput.motion_length ∧
    Deeper.next_move Deeper.new deeperInput =
      Deeper.next_move ⟨true, 12, 1, 0⟩ deeperInput := by
  have h := deeper_pattern_spec
  have hm := h.2.2.1 (PatternMove.new 200 65) (by decide)
  exact ⟨hm.1, hm.2,
    h.2.2.2.2.1 deeperInput c7InState (by decide),
    h.2.2.2.2.2.1 deeperInput c7OutState (by decide) (by decide) (by decide) (by decide),
    h.2.2.2.2.2.2 deeperInput Deeper.new (by decide)⟩

/-- C9: process_command routes `set:<action>:<value>` for the five known
actions with an unsigned-integer value to the corresponding motion-state
setter, routes `go:simplePenetration` and `go:strokeEngine` to enabling
motion and `go:menu` to disabling it, and acknowledges with
`ok:<original>` on success and `fail:<original>` on any unrecognised verb,
action or non-numeric value, replacing the suffix with `overflow` when the
original does not fit the 64-byte response. -/
theorem process_command_routes :
    (∀ value v rest, parse_u32 value = some v →
      routeCommand ("set" :: "speed" :: value :: rest) =
        (some (.velocityPct v), false) ∧
      routeCommand ("set" :: "stroke" :: value :: rest) =
        (some (.lengthPct v), false) ∧
      routeCommand ("set" :: "depth" :: value :: rest) =
        (some (.depthPct v), false) ∧
      routeCommand ("set" :: "sensation" :: value :: rest) =
        (some (.sensationPct v), false) ∧
      routeCommand ("set" :: "pattern" :: value :: rest) =
        (some (.patternIdx v), false)) ∧
    (∀ rest,
      routeCommand ("go" :: "simplePenetration" :: rest) =
        (some (.enabledSet true), false) ∧
      routeCommand ("go" :: "strokeEngine" :: rest) =
        (some (.enabledSet true), false) ∧
      routeCommand ("go" :: "menu" :: rest) = (some (.enabledSet false), false)) ∧
    (∀ action value rest, parse_u32 value = none →
      routeCommand ("set" :: action :: value :: rest) = (none, true)) ∧
    (∀ action, routeCommand ["set", action] = (none, true)) ∧
    (∀ action value v rest, parse_u32 value = some v →
      action ≠ "speed" → action ≠ "stroke" → action ≠ "depth" →
      action ≠ "sensation" → action ≠ "pattern" →
      routeCommand ("set" :: action :: value :: rest) = (none, true)) ∧
    (∀ action rest, action ≠ "simplePenetration" → action ≠ "strokeEngine" →
      action ≠ "menu" → routeCommand ("go" :: action :: rest) = (none, true)) ∧
    (∀ cmd action rest, cmd ≠ "set" → cmd ≠ "go" →
      routeCommand (cmd :: action :: rest) = (none, true)) ∧
    (∀ cmd, routeCommand [cmd] = (none, true)) ∧
    (∀ s, process_command s =
      ((routeCommand (commandParts s)).1,
        ackString (routeCommand (commandParts s)).2 s)) ∧
    (∀ s, (s.length ≤ 59 → ackString true s = "fail:" ++ s) ∧
      (59 < s.length → ackString true s = "fail:" ++ "overflow") ∧
      (s.length ≤ 61 → ackString false s = "ok:" ++ s) ∧
      (61 < s.length → ackString false s = "ok:" ++ "overflow")) := by
  have hf : ("fail:" : String).length = 5 := rfl
  have ho : ("ok:" : String).length = 3 := rfl
  refine ⟨?_, ?_, ?_, ?_, ?_, ?_, ?_, ?_, ?_, ?_⟩
  · intro value v rest h
    refine ⟨?_, ?_, ?_, ?_, ?_⟩ <;> simp [routeCommand, h]
  · intro rest
    refine ⟨?_, ?_, ?_⟩ <;> simp [routeCommand]
  · intro action value rest h
    simp [routeCommand, h]
  · intro action
    simp [routeCommand]
  · intro action value v rest h h1 h2 h3 h4 h5
    simp [routeCommand, h, h1, h2, h3, h4, h5]
  · intro action rest h1 h2 h3
    simp [routeCommand, h1, h2, h3]
  · intro cmd action rest h1 h2
    simp [routeCommand, h1, h2]
  · intro cmd
    simp [routeCommand]
  · intro s
    rfl
  · intro s
    refine ⟨?_, ?_, ?_, ?_⟩ <;> intro h <;>
      simp only [ackString, MAX_COMMAND_LENGTH, hf, ho, if_true, if_false,
        Bool.false_eq_true, ite_true, ite_false]
    · rw [if_pos (by omega)]
    · rw [if_neg (by omega)]
    · rw [if_pos (by omega)]
    · rw [if_neg (by omega)]

theorem process_command_routes_witness :
    routeCommand ("set" :: "speed" :: "42" :: []) =
      (some (.velocityPct 42), false) ∧
    routeCommand ("go" :: "menu" :: []) = (some (.enabledSet false), false) ∧
    routeCommand ("set" :: "speed" :: "4x" :: []) = (none, true) ∧
    routeCommand ["set", "speed"] = (none, true) ∧
    routeCommand ("set" :: "coffee" :: "42" :: []) = (none, true) ∧
    routeCommand ("go" :: "coffee" :: []) = (none, true) ∧
    routeCommand ("brew" :: "menu" :: []) = (none, true) ∧
    routeCommand ["go"] = (none, true) ∧
    process_command "go:menu" =
      ((routeCommand (commandParts "go:menu")).1,
        ackString (routeCommand (commandParts "go:menu")).2 "go:menu") ∧
    ackString true "go:nope" = "fail:" ++ "go:nope" := by
  have h := process_command_routes
  exact ⟨(h.1 "42" 42 [] (by decide)).1, (h.2.1 []).2.2,
    h.2.2.1 "speed" "4x" [] (by decide),
    h.2.2.2.1 "speed",
    h.2.2.2.2.1 "coffee" "42" 42 [] (by decide) (by decide) (by decide) (by decide)
      (by decide) (by decide),
    h.2.2.2.2.2.1 "coffee" [] (by decide) (by decide) (by decide),
    h.2.2.2.2.2.2.1 "brew" "menu" [] (by decide) (by decide),
    h.2.2.2.2.2.2.2.1 "go",
    h.2.2.2.2.2.2.2.2.1 "go:menu",
    (h.2.2.2.2.2.2.2.2.2 "go:nope").1 (by decide)⟩
